import Mathlib

/-!
Verification of the LUNA16 / LIDC-IDRI mask-reconstruction utilities.

This file gives a shallow embedding of the mask-reconstruction core of the
repository (src/utils/data_loader.py and src/utils/lidc_loader.py) and proves
properties of it.  Real-valued quantities (millimetre coordinates, vote
fractions) are modelled exactly over the rationals; machine integers are
modelled as unbounded integers.  The external polygon-fill primitive
(skimage.draw.polygon) is modelled as an opaque parameter returning the filled
pixel indices inside a given 2D shape, and the external annotation store
(pylidc) is modelled as an explicit list of scan records.
-/

namespace LidcLuna

/-- The round-to-nearest, ties-to-even integer rounding used by both numpy's
rint (data_loader.world_to_voxel, line 85) and Python 3's built-in round
(lidc_loader lines 494, 593, 625, 683, 715). -/
def round_half_even (x : ℚ) : ℤ :=
  if x - ⌊x⌋ < 1 / 2 then ⌊x⌋
  else if 1 / 2 < x - ⌊x⌋ then ⌊x⌋ + 1
  else if ⌊x⌋ % 2 = 0 then ⌊x⌋ else ⌊x⌋ + 1

/-- Coordinate triples in millimetres, axis order (z, y, x). -/
abbrev Q3 := ℚ × ℚ × ℚ

/-- LUNA16DataLoader.world_to_voxel: voxel = rint((world - origin) / spacing),
element-wise (data_loader.py lines 70-86). -/
def world_to_voxel (w o s : Q3) : ℤ × ℤ × ℤ :=
  (round_half_even ((w.1 - o.1) / s.1),
   round_half_even ((w.2.1 - o.2.1) / s.2.1),
   round_half_even ((w.2.2 - o.2.2) / s.2.2))

/-- LUNA16DataLoader.voxel_to_world: world = spacing * voxel + origin,
element-wise (data_loader.py lines 88-104). -/
def voxel_to_world (v : ℤ × ℤ × ℤ) (o s : Q3) : Q3 :=
  (s.1 * (v.1 : ℚ) + o.1, s.2.1 * (v.2.1 : ℚ) + o.2.1, s.2.2 * (v.2.2 : ℚ) + o.2.2)

/-- The z-position conversion used inside lidc_loader
(`int(round((z_mm - origin[0]) / spacing[0]))`, lines 494, 593, 625, 683, 715). -/
def z_index (zmm o0 s0 : ℚ) : ℤ :=
  round_half_even ((zmm - o0) / s0)

/-- Modelled from the spec: round to nearest with ties away from zero, the
rounding rule the specification's CoordinateMapper contract prescribes.  Stated
only for comparison with the source's round_half_even. -/
def round_half_away (x : ℚ) : ℤ :=
  if 0 ≤ x then ⌊x + 1 / 2⌋ else ⌈x - 1 / 2⌉

/-- Modelled from the spec: the element-wise mm-to-voxel conversion with
ties rounded away from zero, for comparison with world_to_voxel. -/
def world_to_voxel_spec (w o s : Q3) : ℤ × ℤ × ℤ :=
  (round_half_away ((w.1 - o.1) / s.1),
   round_half_away ((w.2.1 - o.2.1) / s.2.1),
   round_half_away ((w.2.2 - o.2.2) / s.2.2))

lemma round_half_even_dist (x : ℚ) : |x - round_half_even x| ≤ 1 / 2 := by
  have hf0 : (⌊x⌋ : ℚ) ≤ x := Int.floor_le x
  have hf1 : x < ⌊x⌋ + 1 := Int.lt_floor_add_one x
  unfold round_half_even
  split
  · rename_i h
    rw [abs_of_nonneg (by linarith)]
    linarith
  · rename_i h
    split
    · rename_i h2
      rw [abs_of_nonpos (by push_cast; linarith)]
      push_cast
      linarith
    · rename_i h2
      have he : x - ⌊x⌋ = 1 / 2 := by linarith
      split
      · rw [abs_of_nonneg (by linarith)]
        linarith
      · rw [abs_of_nonpos (by push_cast; linarith)]
        push_cast
        linarith

lemma round_half_even_tie (x : ℚ)
    (h : x - round_half_even x = 1 / 2 ∨ x - round_half_even x = -(1 / 2)) :
    round_half_even x % 2 = 0 := by
  have hf0 : (⌊x⌋ : ℚ) ≤ x := Int.floor_le x
  have hf1 : x < ⌊x⌋ + 1 := Int.lt_floor_add_one x
  by_cases h1 : x - ⌊x⌋ < 1 / 2
  · exfalso
    rw [round_half_even, if_pos h1] at h
    rcases h with h | h <;> linarith
  · by_cases h2 : 1 / 2 < x - ⌊x⌋
    · exfalso
      rw [round_half_even, if_neg h1, if_pos h2] at h
      rcases h with h | h <;> push_cast at h <;> linarith
    · by_cases h3 : ⌊x⌋ % 2 = 0
      · rw [round_half_even, if_neg h1, if_neg h2, if_pos h3]
        exact h3
      · rw [round_half_even, if_neg h1, if_neg h2, if_neg h3]
        omega

lemma round_half_even_nearest (x : ℚ) (m : ℤ) :
    |x - round_half_even x| ≤ |x - m| := by
  set r := round_half_even x with hr
  rcases eq_or_ne r m with rfl | hne
  · exact le_refl _
  · have h1 : |x - r| ≤ 1 / 2 := round_half_even_dist x
    have h2 : (1 : ℚ) ≤ |(r : ℚ) - (m : ℚ)| := by
      have : (1 : ℤ) ≤ |r - m| := Int.one_le_abs (sub_ne_zero_of_ne hne)
      calc (1 : ℚ) = ((1 : ℤ) : ℚ) := by norm_num
        _ ≤ ((|r - m| : ℤ) : ℚ) := by exact_mod_cast this
        _ = |(r : ℚ) - (m : ℚ)| := by push_cast; rfl
    have h3 : |(r : ℚ) - m| ≤ |(r : ℚ) - x| + |x - m| := abs_sub_le _ _ _
    have h4 : |(r : ℚ) - x| = |x - r| := abs_sub_comm _ _
    linarith

lemma round_trip_axis (p o sp : ℚ) (hs : 0 < sp) :
    |sp * ((round_half_even ((p - o) / sp) : ℤ) : ℚ) + o - p| ≤ sp / 2 := by
  set q : ℚ := (p - o) / sp with hq
  have hne : sp ≠ 0 := ne_of_gt hs
  have hkey : sp * ((round_half_even q : ℤ) : ℚ) + o - p
      = sp * (((round_half_even q : ℤ) : ℚ) - q) := by
    field_simp [hq]
    ring
  rw [hkey, abs_mul, abs_of_pos hs]
  have hd : |((round_half_even q : ℤ) : ℚ) - q| ≤ 1 / 2 := by
    rw [abs_sub_comm]
    exact round_half_even_dist q
  calc sp * |((round_half_even q : ℤ) : ℚ) - q| ≤ sp * (1 / 2) := by
        exact mul_le_mul_of_nonneg_left hd (le_of_lt hs)
    _ = sp / 2 := by ring

/-- One slice contour of a radiologist's nodule marking: a physical z-position
in millimetres plus the (row, col) pixel coordinates of the polygon vertices
(pylidc Contour.image_z_position and Contour.to_matrix columns 0 and 1). -/
structure Contour where
  zmm : ℚ
  pts : List (ℤ × ℤ)

/-- One radiologist's single-nodule marking: an ordered list of contours
(pylidc Annotation.contours as consumed by lidc_loader). -/
structure AnnRec where
  contours : List Contour

/-- A scan record of the external pylidc store, reduced to the fields the
loader reads: its series identifier, its flat list of markings
(scan.annotations) and the clustering into physical nodules
(scan.cluster_annotations()). -/
structure ScanRec where
  uid : ℕ
  annotations : List AnnRec
  clusters : List (List AnnRec)

/-- One axis of a bounding box: a half-open index range, as a Python slice
(start, stop). -/
structure Box1 where
  start : ℤ
  stop : ℤ

/-- A 3D bounding box: one half-open index range per axis (z, y, x). -/
structure BBox3 where
  z : Box1
  y : Box1
  x : Box1

/-- A 3D boolean mask: its shape (slices, rows, cols) and its voxel values,
indexed locally from (0,0,0). -/
structure Mask3 where
  shape : ℕ × ℕ × ℕ
  mem : ℕ → ℕ → ℕ → Bool

/-- The intermediate bounds computed by the aligned reconstruction routines:
inclusive z index range and the clamped half-open row/col ranges. -/
structure Frame where
  zmin : ℤ
  zmax : ℤ
  ymin : ℤ
  ymax : ℤ
  xmin : ℤ
  xmax : ℤ

/-- Minimum of a nonempty collection, given as first element plus rest
(models Python min over a nonempty list). -/
def minL (a : ℤ) (l : List ℤ) : ℤ :=
  l.foldl min a

/-- Maximum of a nonempty collection, given as first element plus rest
(models Python max over a nonempty list). -/
def maxL (a : ℤ) (l : List ℤ) : ℤ :=
  l.foldl max a

lemma minL_le_init (a : ℤ) (l : List ℤ) : minL a l ≤ a := by
  induction l generalizing a with
  | nil => exact le_refl a
  | cons c t ih =>
    have h := ih (min a c)
    calc minL a (c :: t) = minL (min a c) t := rfl
      _ ≤ min a c := h
      _ ≤ a := min_le_left _ _

lemma minL_le_mem (a : ℤ) (l : List ℤ) (b : ℤ) (hb : b ∈ l) : minL a l ≤ b := by
  induction l generalizing a with
  | nil => cases hb
  | cons c t ih =>
    rcases List.mem_cons.mp hb with rfl | hbt
    · calc minL a (b :: t) = minL (min a b) t := rfl
        _ ≤ min a b := minL_le_init _ _
        _ ≤ b := min_le_right _ _
    · exact ih (min a c) hbt

lemma init_le_maxL (a : ℤ) (l : List ℤ) : a ≤ maxL a l := by
  induction l generalizing a with
  | nil => exact le_refl a
  | cons c t ih =>
    have h := ih (max a c)
    calc a ≤ max a c := le_max_left _ _
      _ ≤ maxL (max a c) t := h
      _ = maxL a (c :: t) := rfl

lemma mem_le_maxL (a : ℤ) (l : List ℤ) (b : ℤ) (hb : b ∈ l) : b ≤ maxL a l := by
  induction l generalizing a with
  | nil => cases hb
  | cons c t ih =>
    rcases List.mem_cons.mp hb with rfl | hbt
    · calc b ≤ max a b := le_max_right _ _
        _ ≤ maxL (max a b) t := init_le_maxL _ _
        _ = maxL a (b :: t) := rfl
    · exact ih (max a c) hbt

lemma minL_le_maxL (a : ℤ) (l : List ℤ) : minL a l ≤ maxL a l :=
  le_trans (minL_le_init a l) (init_le_maxL a l)

/-- The external polygon-fill primitive (skimage.draw.polygon): given the
vertex (row, col) list, already shifted into the local grid, and the grid
shape (rows, cols), it yields the list of filled pixel indices.  skimage
guarantees the returned indices lie inside the given shape; FillOK states
that guarantee for a model instance. -/
abbrev Fill := List (ℤ × ℤ) → ℕ → ℕ → List (ℕ × ℕ)

/-- Well-formedness of a polygon-fill model: every returned index lies inside
the requested shape, as skimage.draw.polygon guarantees. -/
def FillOK (fill : Fill) : Prop :=
  ∀ pts rows cols p, p ∈ fill pts rows cols → p.1 < rows ∧ p.2 < cols

/-- One rasterization call of the loader: the contour's points are shifted by
the frame corner (y_min, x_min) and filled into a (rows, cols) grid
(lidc_loader lines 537-538, 629-630, 719-720). -/
def rasterize (fill : Fill) (rows cols : ℕ) (pts : List (ℤ × ℤ)) (ymin xmin : ℤ) :
    List (ℕ × ℕ) :=
  fill (pts.map fun p => (p.1 - ymin, p.2 - xmin)) rows cols

/-- get_aligned_mask lines 493-500: each contour is paired with the LUNA16
z index of its physical z-position, and only contours with 0 <= z_idx <
ct_shape[0] are kept. -/
def valid_contours (ann : AnnRec) (o0 s0 : ℚ) (nz : ℕ) : List (Contour × ℤ) :=
  (ann.contours.map fun c => (c, z_index c.zmm o0 s0)).filter
    fun ci => decide (0 ≤ ci.2) && decide (ci.2 < (nz : ℤ))

/-- All row coordinates of the valid contours' points (get_aligned_mask
lines 512-516, all_y). -/
def ann_pts_y (ann : AnnRec) (o0 s0 : ℚ) (nz : ℕ) : List ℤ :=
  (valid_contours ann o0 s0 nz).flatMap fun ci => ci.1.pts.map Prod.fst

/-- All column coordinates of the valid contours' points (get_aligned_mask
lines 512-516, all_x). -/
def ann_pts_x (ann : AnnRec) (o0 s0 : ℚ) (nz : ℕ) : List ℤ :=
  (valid_contours ann o0 s0 nz).flatMap fun ci => ci.1.pts.map Prod.snd

/-- get_aligned_mask lines 507-525: z range of the valid contours, and the
row/col bounds of their points clamped to the CT extent.  The arms returning
none model Python min/max raising on an empty sequence (caught by the
enclosing except, which returns None). -/
def aligned_frame (ann : AnnRec) (o s : Q3) (ct : ℕ × ℕ × ℕ) : Option Frame :=
  match valid_contours ann o.1 s.1 ct.1 with
  | [] => none
  | v :: vs =>
    match ann_pts_y ann o.1 s.1 ct.1, ann_pts_x ann o.1 s.1 ct.1 with
    | y0 :: yr, x0 :: xr =>
      some ⟨minL v.2 (vs.map Prod.snd), maxL v.2 (vs.map Prod.snd),
            max 0 (minL y0 yr), min ((ct.2.1 : ℤ)) (maxL y0 yr + 1),
            max 0 (minL x0 xr), min ((ct.2.2 : ℤ)) (maxL x0 xr + 1)⟩
    | _, _ => none

/-- The voxel values of a single reconstructed mask (get_aligned_mask lines
531-541): a voxel is set iff some valid contour lands on its slice and its
(row, col) is returned by the polygon fill of that contour. -/
def ann_mask_mem (fill : Fill) (fr : Frame) (vcs : List (Contour × ℤ)) (zl r c : ℕ) : Bool :=
  vcs.any fun ci =>
    decide (0 ≤ ci.2 - fr.zmin) && decide (ci.2 - fr.zmin < fr.zmax - fr.zmin + 1) &&
    (ci.2 - fr.zmin == (zl : ℤ)) &&
    (rasterize fill (fr.ymax - fr.ymin).toNat (fr.xmax - fr.xmin).toNat
       ci.1.pts fr.ymin fr.xmin).contains (r, c)

/-- get_aligned_mask lines 487-546, the per-annotation reconstruction given
the annotation record (after the store lookup): drop out-of-range contours,
compute the clamped frame, rasterize the surviving contours and return the
mask and its LUNA16 bounding box.  The negative-extent guard models
np.zeros raising ValueError on a negative dimension (caught, returning None). -/
def aligned_mask_of_ann (fill : Fill) (ann : AnnRec) (o s : Q3) (ct : ℕ × ℕ × ℕ) :
    Option (Mask3 × BBox3) :=
  match ann.contours with
  | [] => none
  | _ :: _ =>
    match aligned_frame ann o s ct with
    | none => none
    | some fr =>
      if fr.ymax - fr.ymin < 0 ∨ fr.xmax - fr.xmin < 0 then none
      else some
        ({ shape := ((fr.zmax - fr.zmin + 1).toNat, (fr.ymax - fr.ymin).toNat,
                     (fr.xmax - fr.xmin).toNat),
           mem := ann_mask_mem fill fr (valid_contours ann o.1 s.1 ct.1) },
         ⟨⟨fr.zmin, fr.zmax + 1⟩, ⟨fr.ymin, fr.ymax⟩, ⟨fr.xmin, fr.xmax⟩⟩)

/-- get_scan_by_seriesuid: the first scan record whose identifier matches. -/
def find_scan (store : List ScanRec) (uid : ℕ) : Option ScanRec :=
  store.find? fun sc => sc.uid == uid

/-- get_aligned_mask lines 477-485 plus the reconstruction core: scan lookup,
annotation index check, then the per-annotation reconstruction.  Every
failure mode returns none, as the Python function returns None. -/
def get_aligned_mask (fill : Fill) (store : List ScanRec) (uid : ℕ) (ann_idx : ℕ)
    (o s : Q3) (ct : ℕ × ℕ × ℕ) : Option (Mask3 × BBox3) :=
  match find_scan store uid with
  | none => none
  | some sc =>
    match sc.annotations[ann_idx]? with
    | none => none
    | some ann => aligned_mask_of_ann fill ann o s ct

/-- get_aligned_consensus_mask lines 587-597 (and identically
get_aligned_mask_for_cluster lines 677-687): every contour of every
annotation of the cluster whose z index falls inside the CT slice range,
as (z_idx, row coords, col coords). -/
def contour_data (cluster : List AnnRec) (o0 s0 : ℚ) (nz : ℕ) :
    List (ℤ × List ℤ × List ℤ) :=
  cluster.flatMap fun ann => ann.contours.filterMap fun c =>
    let zi := z_index c.zmm o0 s0
    if 0 ≤ zi ∧ zi < (nz : ℤ) then some (zi, c.pts.map Prod.fst, c.pts.map Prod.snd)
    else none

/-- All row coordinates appearing in contour_data (np.concatenate of the
per-contour row arrays, line 604). -/
def cluster_pts_y (cluster : List AnnRec) (o0 s0 : ℚ) (nz : ℕ) : List ℤ :=
  (contour_data cluster o0 s0 nz).flatMap fun d => d.2.1

/-- All column coordinates appearing in contour_data (line 605). -/
def cluster_pts_x (cluster : List AnnRec) (o0 s0 : ℚ) (nz : ℕ) : List ℤ :=
  (contour_data cluster o0 s0 nz).flatMap fun d => d.2.2

/-- get_aligned_consensus_mask lines 602-613: the global z range and the
clamped row/col bounds over all in-range contours of the cluster.  The arms
returning none model Python min/max raising on an empty sequence. -/
def cluster_frame (cluster : List AnnRec) (o s : Q3) (ct : ℕ × ℕ × ℕ) : Option Frame :=
  match contour_data cluster o.1 s.1 ct.1 with
  | [] => none
  | d :: ds =>
    match cluster_pts_y cluster o.1 s.1 ct.1, cluster_pts_x cluster o.1 s.1 ct.1 with
    | y0 :: yr, x0 :: xr =>
      some ⟨minL d.1 (ds.map fun e => e.1), maxL d.1 (ds.map fun e => e.1),
            max 0 (minL y0 yr), min ((ct.2.1 : ℤ)) (maxL y0 yr + 1),
            max 0 (minL x0 xr), min ((ct.2.2 : ℤ)) (maxL x0 xr + 1)⟩
    | _, _ => none

/-- The per-annotation boolean mask built in the consensus vote loop
(get_aligned_consensus_mask lines 620-633): a voxel of the fused frame is set
iff some contour of the annotation lands on its slice (z_min <= z_idx <=
z_max, then the 0 <= z_local < shape guard) and its (row, col) is returned by
the polygon fill of that contour. -/
def ann_mask_at (fill : Fill) (fr : Frame) (o s : Q3) (ann : AnnRec) (zl r c : ℕ) : Bool :=
  ann.contours.any fun ctr =>
    let zi := z_index ctr.zmm o.1 s.1
    decide (fr.zmin ≤ zi) && decide (zi ≤ fr.zmax) &&
    decide (0 ≤ zi - fr.zmin) && decide (zi - fr.zmin < fr.zmax - fr.zmin + 1) &&
    (zi - fr.zmin == (zl : ℤ)) &&
    (rasterize fill (fr.ymax - fr.ymin).toNat (fr.xmax - fr.xmin).toNat
       ctr.pts fr.ymin fr.xmin).contains (r, c)

/-- The vote volume value at one voxel (lines 620-635): the per-annotation
masks are accumulated, each annotation adding 1.0 at its set voxels. -/
def vote_at (fill : Fill) (fr : Frame) (o s : Q3) (cluster : List AnnRec)
    (zl r c : ℕ) : ℚ :=
  (cluster.map fun ann => if ann_mask_at fill fr o s ann zl r c then (1 : ℚ) else 0).sum

/-- The thresholded, normalized consensus value at one voxel (lines 637-641):
vote_volume /= len(cluster); consensus = vote_volume >= threshold. -/
def cluster_vote_mem (fill : Fill) (fr : Frame) (o s : Q3) (cluster : List AnnRec)
    (t : ℚ) (zl r c : ℕ) : Bool :=
  decide (vote_at fill fr o s cluster zl r c / (cluster.length : ℚ) ≥ t)

/-- The shared consensus reconstruction body of get_aligned_consensus_mask
(lines 584-650) and get_aligned_mask_for_cluster (lines 674-740): collect
in-range contours, compute the fused frame, build the normalized vote volume
and threshold it.  The negative-extent guard models np.zeros raising on a
negative dimension (caught, returning None). -/
def aligned_cluster_consensus (fill : Fill) (cluster : List AnnRec) (o s : Q3)
    (ct : ℕ × ℕ × ℕ) (t : ℚ) : Option (Mask3 × BBox3) :=
  match cluster_frame cluster o s ct with
  | none => none
  | some fr =>
    if fr.ymax - fr.ymin < 0 ∨ fr.xmax - fr.xmin < 0 then none
    else some
      ({ shape := ((fr.zmax - fr.zmin + 1).toNat, (fr.ymax - fr.ymin).toNat,
                   (fr.xmax - fr.xmin).toNat),
         mem := cluster_vote_mem fill fr o s cluster t },
       ⟨⟨fr.zmin, fr.zmax + 1⟩, ⟨fr.ymin, fr.ymax⟩, ⟨fr.xmin, fr.xmax⟩⟩)

/-- get_aligned_mask_for_cluster lines 671-740: guard against an empty
cluster, then the shared consensus reconstruction body. -/
def get_aligned_mask_for_cluster (fill : Fill) (cluster : List AnnRec) (o s : Q3)
    (ct : ℕ × ℕ × ℕ) (t : ℚ) : Option (Mask3 × BBox3) :=
  match cluster with
  | [] => none
  | _ :: _ => aligned_cluster_consensus fill cluster o s ct t

/-- get_aligned_consensus_mask lines 574-650: scan lookup, nodule cluster
index check, then the shared consensus reconstruction body. -/
def get_aligned_consensus_mask (fill : Fill) (store : List ScanRec) (uid : ℕ)
    (nodule_idx : ℕ) (o s : Q3) (ct : ℕ × ℕ × ℕ) (t : ℚ) : Option (Mask3 × BBox3) :=
  match find_scan store uid with
  | none => none
  | some sc =>
    match sc.clusters[nodule_idx]? with
    | none => none
    | some cluster => aligned_cluster_consensus fill cluster o s ct t

/-- Fused minimum start along one axis (get_consensus_mask line 395,
np.min of the per-input starts); 0 on the empty list, which the caller
excludes. -/
def fusedLo (sel : BBox3 → Box1) (pairs : List (Mask3 × BBox3)) : ℤ :=
  match pairs with
  | [] => 0
  | p :: ps => minL (sel p.2).start (ps.map fun q => (sel q.2).start)

/-- Fused maximum stop along one axis (get_consensus_mask line 396,
np.max of the per-input stops); 0 on the empty list, which the caller
excludes. -/
def fusedHi (sel : BBox3 → Box1) (pairs : List (Mask3 × BBox3)) : ℤ :=
  match pairs with
  | [] => 0
  | p :: ps => maxL (sel p.2).stop (ps.map fun q => (sel q.2).stop)

/-- Per-input offsets into the fused frame (get_consensus_mask line 404:
bbox[i].start - min_starts[i]). -/
def offsets_of (pairs : List (Mask3 × BBox3)) (p : Mask3 × BBox3) : ℤ × ℤ × ℤ :=
  (p.2.z.start - fusedLo BBox3.z pairs,
   p.2.y.start - fusedLo BBox3.y pairs,
   p.2.x.start - fusedLo BBox3.x pairs)

/-- Whether the numpy slice assignment of one input mask into the fused vote
volume (lines 405-409) succeeds: the written region, whose extent is the
mask's own shape, must not exceed the fused shape along any axis (otherwise
numpy raises a broadcast error, caught and turned into None). -/
def fits (pairs : List (Mask3 × BBox3)) (p : Mask3 × BBox3) : Bool :=
  decide ((offsets_of pairs p).1 + (p.1.shape.1 : ℤ)
      ≤ fusedHi BBox3.z pairs - fusedLo BBox3.z pairs) &&
  decide ((offsets_of pairs p).2.1 + (p.1.shape.2.1 : ℤ)
      ≤ fusedHi BBox3.y pairs - fusedLo BBox3.y pairs) &&
  decide ((offsets_of pairs p).2.2 + (p.1.shape.2.2 : ℤ)
      ≤ fusedHi BBox3.x pairs - fusedLo BBox3.x pairs)

/-- Whether one input mask covers one voxel of the fused frame, given in
local fused coordinates: the voxel lies inside the region written at the
input's offset and the mask value there is set (lines 405-409). -/
def covers_loc (pairs : List (Mask3 × BBox3)) (p : Mask3 × BBox3) (zl yl xl : ℕ) : Bool :=
  decide ((offsets_of pairs p).1 ≤ (zl : ℤ)) &&
  decide ((zl : ℤ) < (offsets_of pairs p).1 + (p.1.shape.1 : ℤ)) &&
  decide ((offsets_of pairs p).2.1 ≤ (yl : ℤ)) &&
  decide ((yl : ℤ) < (offsets_of pairs p).2.1 + (p.1.shape.2.1 : ℤ)) &&
  decide ((offsets_of pairs p).2.2 ≤ (xl : ℤ)) &&
  decide ((xl : ℤ) < (offsets_of pairs p).2.2 + (p.1.shape.2.2 : ℤ)) &&
  p.1.mem ((zl : ℤ) - (offsets_of pairs p).1).toNat
          ((yl : ℤ) - (offsets_of pairs p).2.1).toNat
          ((xl : ℤ) - (offsets_of pairs p).2.2).toNat

/-- The fused vote volume value at one voxel (lines 400-409): each input mask
adds 1.0 at every voxel it covers. -/
def vote_fuse_at (pairs : List (Mask3 × BBox3)) (zl yl xl : ℕ) : ℚ :=
  (pairs.map fun p => if covers_loc pairs p zl yl xl then (1 : ℚ) else 0).sum

/-- The thresholded, normalized fused vote value at one voxel (lines
411-415). -/
def fuse_vote_mem (pairs : List (Mask3 × BBox3)) (t : ℚ) (zl yl xl : ℕ) : Bool :=
  decide (vote_fuse_at pairs zl yl xl / (pairs.length : ℚ) ≥ t)

/-- get_consensus_mask lines 383-420, the fusion of already-reconstructed
(mask, bbox) pairs (the masks themselves come from pylidc's
ann.boolean_mask() / ann.bbox(), external to this core): fused bounding box,
accumulated vote volume, normalization by the number of inputs, thresholding.
The guards model np.zeros raising on a negative fused dimension and the numpy
slice assignment raising when a write exceeds the fused extent. -/
def consensus_fuse (pairs : List (Mask3 × BBox3)) (t : ℚ) : Option (Mask3 × BBox3) :=
  match pairs with
  | [] => none
  | _ :: _ =>
    if fusedHi BBox3.z pairs - fusedLo BBox3.z pairs < 0 ∨
       fusedHi BBox3.y pairs - fusedLo BBox3.y pairs < 0 ∨
       fusedHi BBox3.x pairs - fusedLo BBox3.x pairs < 0 then none
    else if pairs.all (fits pairs) then
      some
        ({ shape := ((fusedHi BBox3.z pairs - fusedLo BBox3.z pairs).toNat,
                     (fusedHi BBox3.y pairs - fusedLo BBox3.y pairs).toNat,
                     (fusedHi BBox3.x pairs - fusedLo BBox3.x pairs).toNat),
           mem := fuse_vote_mem pairs t },
         ⟨⟨fusedLo BBox3.z pairs, fusedHi BBox3.z pairs⟩,
          ⟨fusedLo BBox3.y pairs, fusedHi BBox3.y pairs⟩,
          ⟨fusedLo BBox3.x pairs, fusedHi BBox3.x pairs⟩⟩)
    else none

/-- Whether a placed input mask covers a voxel given in global frame
coordinates: the voxel lies inside the mask's bounding box and the mask value
at the corresponding local index is set. -/
def covers_global (p : Mask3 × BBox3) (z y x : ℤ) : Bool :=
  decide (p.2.z.start ≤ z) && decide (z < p.2.z.stop) &&
  decide (p.2.y.start ≤ y) && decide (y < p.2.y.stop) &&
  decide (p.2.x.start ≤ x) && decide (x < p.2.x.stop) &&
  p.1.mem (z - p.2.z.start).toNat (y - p.2.y.start).toNat (x - p.2.x.start).toNat

/-- The Mask invariant of the data model: the mask's shape equals the
bounding box extents, axis by axis. -/
def shape_matches (m : Mask3) (bb : BBox3) : Prop :=
  (m.shape.1 : ℤ) = bb.z.stop - bb.z.start ∧
  (m.shape.2.1 : ℤ) = bb.y.stop - bb.y.start ∧
  (m.shape.2.2 : ℤ) = bb.x.stop - bb.x.start

/-- Observation helper: the consensus voxel value returned by the shared
cluster reconstruction body, or false when it returns none. -/
def cluster_mem_at (fill : Fill) (cluster : List AnnRec) (o s : Q3)
    (ct : ℕ × ℕ × ℕ) (t : ℚ) (zl r c : ℕ) : Bool :=
  match aligned_cluster_consensus fill cluster o s ct t with
  | some p => p.1.mem zl r c
  | none => false

/-- Observation helper: the fused consensus voxel value returned by
consensus_fuse, or false when it returns none. -/
def fuse_mem_at (pairs : List (Mask3 × BBox3)) (t : ℚ) (zl yl xl : ℕ) : Bool :=
  match consensus_fuse pairs t with
  | some p => p.1.mem zl yl xl
  | none => false

/-- A concrete instance of the external polygon-fill collaborator, used for
witnesses and counterexamples: it fills the axis-aligned bounding rectangle
of the vertex list, clipped to the grid.  Like skimage.draw.polygon it only
returns indices inside the given shape. -/
def boxFill : Fill := fun pts rows cols =>
  match pts.map Prod.fst, pts.map Prod.snd with
  | r0 :: rs, c0 :: cs =>
    ((List.range rows).flatMap fun r => (List.range cols).map fun c => (r, c)).filter
      fun rc =>
        decide (minL r0 rs ≤ (rc.1 : ℤ)) && decide ((rc.1 : ℤ) ≤ maxL r0 rs) &&
        decide (minL c0 cs ≤ (rc.2 : ℤ)) && decide ((rc.2 : ℤ) ≤ maxL c0 cs)
  | _, _ => []

/-- Modelled from the spec: an annotation "contributes" to a consensus mask
when its own aligned reconstruction is usable, i.e. at least one of its
contours maps into the CT slice range.  Stated for comparison with the
divisor the source actually uses. -/
def spec_contributing (ann : AnnRec) (o s : Q3) (nz : ℕ) : Bool :=
  ann.contours.any fun c =>
    decide (0 ≤ z_index c.zmm o.1 s.1) && decide (z_index c.zmm o.1 s.1 < (nz : ℤ))

/-- Modelled from the spec: the consensus voxel value the claimed
normalization rule produces — the per-voxel vote count divided by the number
of contributing annotations (not by the cluster size).  Stated for comparison
with cluster_vote_mem. -/
def spec_consensus_mem (fill : Fill) (cluster : List AnnRec) (o s : Q3)
    (ct : ℕ × ℕ × ℕ) (t : ℚ) (zl r c : ℕ) : Bool :=
  match cluster_frame cluster o s ct with
  | none => false
  | some fr =>
    decide ((((cluster.filter fun ann => ann_mask_at fill fr o s ann zl r c).length : ℚ))
      / ((cluster.filter fun ann => spec_contributing ann o s ct.1).length : ℚ) ≥ t)

/-- A square contour on the slice at physical z = 1 mm, covering rows 0-1 and
cols 0-1. -/
def cexSquare : Contour :=
  ⟨1, [(0, 0), (0, 1), (1, 1), (1, 0)]⟩

/-- An annotation whose single contour lies inside the CT z-range. -/
def cexAnnA : AnnRec :=
  ⟨[cexSquare]⟩

/-- An annotation whose single contour lies far outside the CT z-range
(z = 100 mm in a 4-slice volume). -/
def cexAnnB : AnnRec :=
  ⟨[⟨100, [(0, 0), (0, 1), (1, 1), (1, 0)]⟩]⟩

/-- A two-annotation cluster: one annotation in range, one entirely out of
range. -/
def cexCluster : List AnnRec :=
  [cexAnnA, cexAnnB]

/-- Concrete volume origin (0,0,0) mm. -/
def cexO : Q3 := (0, 0, 0)

/-- Concrete volume spacing (1,1,1) mm. -/
def cexS : Q3 := (1, 1, 1)

/-- Concrete CT shape: 4 slices of 2 x 2 pixels. -/
def cexCT : ℕ × ℕ × ℕ := (4, 2, 2)

/-- C2 (amended): for every mm coordinate, origin and strictly positive
spacing, the mm-to-voxel conversion returns the integer nearest to
(mm - origin) / spacing, with ties rounded to even (the rule shared by
numpy's rint and Python 3's round), and the lidc_loader z call sites apply
exactly the same rounding as data_loader.world_to_voxel. -/
theorem mm_to_voxel_rounding_amended (p o sp : ℚ) (hs : 0 < sp) :
    (world_to_voxel (p, p, p) (o, o, o) (sp, sp, sp)).1 = z_index p o sp ∧
    |(p - o) / sp - ((z_index p o sp : ℤ) : ℚ)| ≤ 1 / 2 ∧
    (∀ m : ℤ, |(p - o) / sp - ((z_index p o sp : ℤ) : ℚ)| ≤ |(p - o) / sp - (m : ℚ)|) ∧
    ((p - o) / sp - ((z_index p o sp : ℤ) : ℚ) = 1 / 2 ∨
      (p - o) / sp - ((z_index p o sp : ℤ) : ℚ) = -(1 / 2) → z_index p o sp % 2 = 0) := by
  refine ⟨rfl, ?_, ?_, ?_⟩
  · exact round_half_even_dist ((p - o) / sp)
  · intro m
    exact round_half_even_nearest ((p - o) / sp) m
  · intro h
    exact round_half_even_tie ((p - o) / sp) h

theorem mm_to_voxel_rounding_witness :
    (0 : ℚ) < 2 ∧ |(3 - 1) / 2 - ((z_index 3 1 2 : ℤ) : ℚ)| ≤ 1 / 2 :=
  ⟨by norm_num, (mm_to_voxel_rounding_amended 3 1 2 (by norm_num)).2.1⟩

/-- C2 (counterexample): the conversion does not round ties away from zero.
At mm point 1/2 with origin 0 and strictly positive spacing 1 the source
(np.rint / Python round) yields voxel 0, while the round-half-away-from-zero
rule the claim states yields 1. -/
theorem mm_to_voxel_rounding_cex :
    (0 : ℚ) < 1 ∧
    world_to_voxel (1 / 2, 0, 0) (0, 0, 0) (1, 1, 1) = (0, 0, 0) ∧
    world_to_voxel_spec (1 / 2, 0, 0) (0, 0, 0) (1, 1, 1) = (1, 0, 0) := by
  refine ⟨by norm_num, ?_, ?_⟩ <;> with_unfolding_all decide

/-- C9: for every mm point and every frame with strictly positive spacing,
converting to voxel indices and back (voxel_to_world after world_to_voxel)
moves the point by at most half a voxel spacing on each axis. -/
theorem round_trip_half_voxel (p o s : Q3) (h1 : 0 < s.1) (h2 : 0 < s.2.1)
    (h3 : 0 < s.2.2) :
    |(voxel_to_world (world_to_voxel p o s) o s).1 - p.1| ≤ s.1 / 2 ∧
    |(voxel_to_world (world_to_voxel p o s) o s).2.1 - p.2.1| ≤ s.2.1 / 2 ∧
    |(voxel_to_world (world_to_voxel p o s) o s).2.2 - p.2.2| ≤ s.2.2 / 2 := by
  refine ⟨?_, ?_, ?_⟩
  · simpa [voxel_to_world, world_to_voxel] using round_trip_axis p.1 o.1 s.1 h1
  · simpa [voxel_to_world, world_to_voxel] using round_trip_axis p.2.1 o.2.1 s.2.1 h2
  · simpa [voxel_to_world, world_to_voxel] using round_trip_axis p.2.2 o.2.2 s.2.2 h3

theorem round_trip_half_voxel_witness :
    (0 : ℚ) < 2 ∧
    |(voxel_to_world (world_to_voxel (1, 1, 1) (0, 0, 0) (2, 2, 2)) (0, 0, 0) (2, 2, 2)).1
      - 1| ≤ 2 / 2 :=
  ⟨by norm_num,
   (round_trip_half_voxel (1, 1, 1) (0, 0, 0) (2, 2, 2) (by norm_num) (by norm_num)
     (by norm_num)).1⟩

lemma vote_at_eq_count (fill : Fill) (fr : Frame) (o s : Q3) (cluster : List AnnRec)
    (zl r c : ℕ) :
    vote_at fill fr o s cluster zl r c
      = ((cluster.filter fun ann => ann_mask_at fill fr o s ann zl r c).length : ℚ) := by
  induction cluster with
  | nil => simp [vote_at]
  | cons a l ih =>
    simp only [vote_at, List.map_cons, List.sum_cons] at *
    rw [List.filter_cons]
    by_cases h : ann_mask_at fill fr o s a zl r c
    · simp only [h, if_pos, if_true, List.length_cons]
      rw [ih]
      push_cast
      ring
    · simp only [h, if_neg, if_false, Bool.false_eq_true, ite_false]
      rw [ih]
      simp

lemma vote_at_nonneg (fill : Fill) (fr : Frame) (o s : Q3) (cluster : List AnnRec)
    (zl r c : ℕ) :
    0 ≤ vote_at fill fr o s cluster zl r c := by
  unfold vote_at
  apply List.sum_nonneg
  intro x hx
  rcases List.mem_map.mp hx with ⟨a, _, rfl⟩
  split <;> norm_num

lemma acc_some_elim (fill : Fill) (cluster : List AnnRec) (o s : Q3)
    (ct : ℕ × ℕ × ℕ) (t : ℚ) (m : Mask3) (bb : BBox3)
    (h : aligned_cluster_consensus fill cluster o s ct t = some (m, bb)) :
    ∃ fr, cluster_frame cluster o s ct = some fr ∧
      ¬(fr.ymax - fr.ymin < 0 ∨ fr.xmax - fr.xmin < 0) ∧
      m = { shape := ((fr.zmax - fr.zmin + 1).toNat, (fr.ymax - fr.ymin).toNat,
                      (fr.xmax - fr.xmin).toNat),
            mem := cluster_vote_mem fill fr o s cluster t } ∧
      bb = ⟨⟨fr.zmin, fr.zmax + 1⟩, ⟨fr.ymin, fr.ymax⟩, ⟨fr.xmin, fr.xmax⟩⟩ := by
  rcases hfr : cluster_frame cluster o s ct with _ | fr
  · unfold aligned_cluster_consensus at h
    rw [hfr] at h
    cases h
  · refine ⟨fr, rfl, ?_⟩
    unfold aligned_cluster_consensus at h
    rw [hfr] at h
    split at h
    · rename_i heq
      cases heq
    · rename_i fr2 heq
      injection heq with he
      subst he
      split at h
      · cases h
      · rename_i hguard
        rw [Option.some.injEq, Prod.mk.injEq] at h
        exact ⟨hguard, h.1.symm, h.2.symm⟩

/-- The intermediate frame of the counterexample cluster. -/
def cexFr : Frame := ⟨1, 1, 0, 2, 0, 2⟩

/-- The consensus mask computed for the counterexample cluster at
threshold 1/2. -/
def cexMask : Mask3 :=
  { shape := (1, 2, 2), mem := cluster_vote_mem boxFill cexFr cexO cexS cexCluster (1 / 2) }

/-- The fused bounding box of the counterexample cluster. -/
def cexBB : BBox3 := ⟨⟨1, 2⟩, ⟨0, 2⟩, ⟨0, 2⟩⟩

/-- C1 (amended): in the aligned cluster consensus, the vote volume is
normalized by dividing by the total number of annotations in the cluster —
including annotations contributing no in-range contour — and vote counting is
per annotation: a consensus voxel is set iff (number of annotations whose
reconstructed mask marks it) / (cluster size) reaches the threshold, and that
count never exceeds the cluster size. -/
theorem consensus_divisor_amended (fill : Fill) (cluster : List AnnRec) (o s : Q3)
    (ct : ℕ × ℕ × ℕ) (t : ℚ) (fr : Frame) (m : Mask3) (bb : BBox3)
    (hfr : cluster_frame cluster o s ct = some fr)
    (h : aligned_cluster_consensus fill cluster o s ct t = some (m, bb)) (zl r c : ℕ) :
    m.mem zl r c = decide
      ((((cluster.filter fun ann => ann_mask_at fill fr o s ann zl r c).length : ℚ))
        / (cluster.length : ℚ) ≥ t) ∧
    (cluster.filter fun ann => ann_mask_at fill fr o s ann zl r c).length
      ≤ cluster.length := by
  constructor
  · rcases acc_some_elim fill cluster o s ct t m bb h with ⟨fr2, hfr2, _, hm, _⟩
    rw [hfr] at hfr2
    injection hfr2 with he
    subst he
    rw [hm]
    show cluster_vote_mem fill fr o s cluster t zl r c = _
    unfold cluster_vote_mem
    rw [vote_at_eq_count]
  · exact List.length_filter_le _ _

theorem consensus_divisor_amended_witness :
    cluster_frame cexCluster cexO cexS cexCT = some cexFr ∧
    aligned_cluster_consensus boxFill cexCluster cexO cexS cexCT (1 / 2)
      = some (cexMask, cexBB) ∧
    cexMask.mem 0 0 0 = decide
      ((((cexCluster.filter fun ann => ann_mask_at boxFill cexFr cexO cexS ann 0 0 0).length
        : ℚ)) / (cexCluster.length : ℚ) ≥ (1 / 2 : ℚ)) := by
  have hfr : cluster_frame cexCluster cexO cexS cexCT = some cexFr := by
    with_unfolding_all rfl
  have hc : aligned_cluster_consensus boxFill cexCluster cexO cexS cexCT (1 / 2)
      = some (cexMask, cexBB) := by
    with_unfolding_all rfl
  exact ⟨hfr, hc,
    (consensus_divisor_amended boxFill cexCluster cexO cexS cexCT (1 / 2) cexFr cexMask
      cexBB hfr hc 0 0 0).1⟩

/-- C1 (counterexample): in a cluster of two annotations where only one has
an in-range contour, the source divides the vote by the cluster size 2, not
by the single contributing annotation: at threshold 3/5 the source excludes
the voxel the contributing annotation marks, while the claimed normalization
(divide by the number of contributing annotations) includes it. -/
theorem consensus_divisor_cex :
    (aligned_cluster_consensus boxFill cexCluster cexO cexS cexCT (3 / 5)).isSome = true ∧
    cluster_mem_at boxFill cexCluster cexO cexS cexCT (3 / 5) 0 0 0 = false ∧
    spec_consensus_mem boxFill cexCluster cexO cexS cexCT (3 / 5) 0 0 0 = true := by
  refine ⟨?_, ?_, ?_⟩ <;> with_unfolding_all decide

/-- C4 (amended): the consensus operations perform no threshold validation at
all: whether a result is produced is independent of the threshold, and an
out-of-range threshold is used directly in the final comparison — with any
threshold ≤ 0 every voxel of the fused volume is marked. -/
theorem threshold_not_validated :
    (∀ (fill : Fill) (cluster : List AnnRec) (o s : Q3) (ct : ℕ × ℕ × ℕ) (t t' : ℚ),
        (aligned_cluster_consensus fill cluster o s ct t).isSome
          = (aligned_cluster_consensus fill cluster o s ct t').isSome) ∧
    (∀ (fill : Fill) (cluster : List AnnRec) (o s : Q3) (ct : ℕ × ℕ × ℕ) (t : ℚ)
        (zl r c : ℕ), t ≤ 0 →
        (aligned_cluster_consensus fill cluster o s ct t).isSome = true →
        cluster_mem_at fill cluster o s ct t zl r c = true) := by
  constructor
  · intro fill cluster o s ct t t'
    unfold aligned_cluster_consensus
    rcases hfr : cluster_frame cluster o s ct with _ | fr
    · rfl
    · show (if fr.ymax - fr.ymin < 0 ∨ fr.xmax - fr.xmin < 0 then _ else _ : Option (Mask3 × BBox3)).isSome = _
      split <;> rename_i h2 <;> simp [h2] <;> omega
  · intro fill cluster o s ct t zl r c ht hs
    unfold cluster_mem_at
    rcases hc : aligned_cluster_consensus fill cluster o s ct t with _ | p
    · rw [hc] at hs
      simp at hs
    · rcases acc_some_elim fill cluster o s ct t p.1 p.2 (by rw [hc]) with ⟨fr, _, _, hm, _⟩
      show p.1.mem zl r c = true
      rw [hm]
      show cluster_vote_mem fill fr o s cluster t zl r c = true
      unfold cluster_vote_mem
      rw [decide_eq_true_eq]
      have hv : 0 ≤ vote_at fill fr o s cluster zl r c :=
        vote_at_nonneg fill fr o s cluster zl r c
      have hn : (0 : ℚ) ≤ (cluster.length : ℚ) := by positivity
      exact le_trans ht (div_nonneg hv hn)

theorem threshold_not_validated_witness :
    ((0 : ℚ) ≤ 0) ∧
    (aligned_cluster_consensus boxFill [cexAnnA] cexO cexS cexCT 0).isSome = true ∧
    cluster_mem_at boxFill [cexAnnA] cexO cexS cexCT 0 0 0 0 = true := by
  have h0 : (0 : ℚ) ≤ 0 := le_refl 0
  have hs : (aligned_cluster_consensus boxFill [cexAnnA] cexO cexS cexCT 0).isSome = true := by
    with_unfolding_all decide
  exact ⟨h0, hs, threshold_not_validated.2 boxFill [cexAnnA] cexO cexS cexCT 0 0 0 0 h0 hs⟩

/-- C4 (counterexample): threshold 0 lies outside (0, 1], yet the consensus
call neither reports an error nor clamps — it returns a computed mask, built
with the out-of-range value, marking every voxel of the fused box. -/
theorem threshold_validation_cex :
    ¬ ((0 : ℚ) < 0 ∧ (0 : ℚ) ≤ 1) ∧
    (aligned_cluster_consensus boxFill [cexAnnA] cexO cexS cexCT 0).isSome = true ∧
    cluster_mem_at boxFill [cexAnnA] cexO cexS cexCT 0 0 0 0 = true ∧
    cluster_mem_at boxFill [cexAnnA] cexO cexS cexCT 0 0 1 1 = true := by
  refine ⟨by simp, ?_, ?_, ?_⟩ <;> with_unfolding_all decide

lemma aligned_mask_none_of_contours_nil (fill : Fill) (ann : AnnRec) (o s : Q3)
    (ct : ℕ × ℕ × ℕ) (h : ann.contours = []) :
    aligned_mask_of_ann fill ann o s ct = none := by
  unfold aligned_mask_of_ann
  rw [h]

lemma aligned_frame_none_of_valid_nil (ann : AnnRec) (o s : Q3) (ct : ℕ × ℕ × ℕ)
    (h : valid_contours ann o.1 s.1 ct.1 = []) :
    aligned_frame ann o s ct = none := by
  unfold aligned_frame
  rw [h]

lemma aligned_mask_none_of_frame_none (fill : Fill) (ann : AnnRec) (o s : Q3)
    (ct : ℕ × ℕ × ℕ) (h : aligned_frame ann o s ct = none) :
    aligned_mask_of_ann fill ann o s ct = none := by
  unfold aligned_mask_of_ann
  rcases hcon : ann.contours with _ | ⟨c0, crest⟩
  · rfl
  · rw [h]

/-- A store holding one scan (uid 7) whose only annotation has zero
contours: the scan and the annotation index exist, but reconstruction has
nothing to rasterize. -/
def cexStoreE : List ScanRec := [⟨7, [⟨[]⟩], []⟩]

/-- C3 (amended): NotFound and EmptyResult are not distinguishable from the
returned value: a missing scan, an out-of-range annotation index, an
annotation with zero contours and an annotation whose contours are all
dropped every one return the same sentinel (None). -/
theorem failure_reporting_amended :
    (∀ (fill : Fill) (store : List ScanRec) (uid ann_idx : ℕ) (o s : Q3)
        (ct : ℕ × ℕ × ℕ), find_scan store uid = none →
        get_aligned_mask fill store uid ann_idx o s ct = none) ∧
    (∀ (fill : Fill) (store : List ScanRec) (uid ann_idx : ℕ) (o s : Q3)
        (ct : ℕ × ℕ × ℕ) (sc : ScanRec), find_scan store uid = some sc →
        sc.annotations.length ≤ ann_idx →
        get_aligned_mask fill store uid ann_idx o s ct = none) ∧
    (∀ (fill : Fill) (ann : AnnRec) (o s : Q3) (ct : ℕ × ℕ × ℕ),
        ann.contours = [] → aligned_mask_of_ann fill ann o s ct = none) ∧
    (∀ (fill : Fill) (ann : AnnRec) (o s : Q3) (ct : ℕ × ℕ × ℕ),
        valid_contours ann o.1 s.1 ct.1 = [] →
        aligned_mask_of_ann fill ann o s ct = none) := by
  refine ⟨?_, ?_, ?_, ?_⟩
  · intro fill store uid ann_idx o s ct h
    unfold get_aligned_mask
    rw [h]
  · intro fill store uid ann_idx o s ct sc h hlen
    unfold get_aligned_mask
    rw [h]
    show (match sc.annotations[ann_idx]? with
          | none => none
          | some ann => aligned_mask_of_ann fill ann o s ct) = none
    rw [List.getElem?_eq_none hlen]
  · intro fill ann o s ct h
    exact aligned_mask_none_of_contours_nil fill ann o s ct h
  · intro fill ann o s ct h
    exact aligned_mask_none_of_frame_none fill ann o s ct
      (aligned_frame_none_of_valid_nil ann o s ct h)

theorem failure_reporting_witness :
    find_scan ([] : List ScanRec) 7 = none ∧
    get_aligned_mask boxFill [] 7 0 cexO cexS cexCT = none ∧
    (⟨[]⟩ : AnnRec).contours = [] ∧
    aligned_mask_of_ann boxFill ⟨[]⟩ cexO cexS cexCT = none := by
  have h1 : find_scan ([] : List ScanRec) 7 = none := rfl
  have h3 : (⟨[]⟩ : AnnRec).contours = [] := rfl
  exact ⟨h1, failure_reporting_amended.1 boxFill [] 7 0 cexO cexS cexCT h1, h3,
    failure_reporting_amended.2.2.1 boxFill ⟨[]⟩ cexO cexS cexCT h3⟩

/-- C3 (counterexample): a NotFound input (empty store) and an EmptyResult
input (the scan and annotation index exist but the annotation has zero
contours) produce equal return values, both the None sentinel — the caller
cannot tell the two cases apart from the returned value alone. -/
theorem failure_reporting_cex :
    get_aligned_mask boxFill [] 7 0 cexO cexS cexCT
      = get_aligned_mask boxFill cexStoreE 7 0 cexO cexS cexCT ∧
    get_aligned_mask boxFill [] 7 0 cexO cexS cexCT = none ∧
    find_scan ([] : List ScanRec) 7 = none ∧
    find_scan cexStoreE 7 = some ⟨7, [⟨[]⟩], []⟩ ∧
    (⟨7, [⟨[]⟩], []⟩ : ScanRec).annotations.length = 1 := by
  refine ⟨?_, ?_, ?_, ?_, ?_⟩ <;> with_unfolding_all rfl

lemma pts_y_nil_iff_x_nil (ann : AnnRec) (o0 s0 : ℚ) (nz : ℕ) :
    ann_pts_y ann o0 s0 nz = [] ↔ ann_pts_x ann o0 s0 nz = [] := by
  unfold ann_pts_y ann_pts_x
  induction valid_contours ann o0 s0 nz with
  | nil => simp
  | cons v vs ih =>
    simp only [List.flatMap_cons, List.append_eq_nil, List.map_eq_nil_iff] at *
    rw [ih]

/-- Whether the clamped half-open range built from a coordinate list and an
upper bound has negative extent: min(bound, max+1) - max(0, min) < 0
(get_aligned_mask lines 518-525, the condition under which the mask shape
passed to np.zeros is negative). -/
def clamped_neg (pts : List ℤ) (bound : ℕ) : Bool :=
  match pts with
  | [] => false
  | a :: l => decide (min ((bound : ℤ)) (maxL a l + 1) - max 0 (minL a l) < 0)

lemma aligned_frame_none_of_pts_nil (ann : AnnRec) (o s : Q3) (ct : ℕ × ℕ × ℕ)
    (h : ann_pts_y ann o.1 s.1 ct.1 = []) :
    aligned_frame ann o s ct = none := by
  have hx : ann_pts_x ann o.1 s.1 ct.1 = [] := (pts_y_nil_iff_x_nil ann o.1 s.1 ct.1).mp h
  unfold aligned_frame
  rcases hvc : valid_contours ann o.1 s.1 ct.1 with _ | ⟨v, vs⟩
  · rfl
  · rw [h, hx]

lemma aligned_frame_eq_some (ann : AnnRec) (o s : Q3) (ct : ℕ × ℕ × ℕ)
    (v : Contour × ℤ) (vs : List (Contour × ℤ)) (y0 : ℤ) (yr : List ℤ)
    (x0 : ℤ) (xr : List ℤ)
    (hvc : valid_contours ann o.1 s.1 ct.1 = v :: vs)
    (hy : ann_pts_y ann o.1 s.1 ct.1 = y0 :: yr)
    (hx : ann_pts_x ann o.1 s.1 ct.1 = x0 :: xr) :
    aligned_frame ann o s ct = some
      ⟨minL v.2 (vs.map Prod.snd), maxL v.2 (vs.map Prod.snd),
       max 0 (minL y0 yr), min ((ct.2.1 : ℤ)) (maxL y0 yr + 1),
       max 0 (minL x0 xr), min ((ct.2.2 : ℤ)) (maxL x0 xr + 1)⟩ := by
  unfold aligned_frame
  rw [hvc, hy, hx]

lemma boxFill_ok : FillOK boxFill := by
  intro pts rows cols p hp
  unfold boxFill at hp
  rcases hr : pts.map Prod.fst with _ | ⟨r0, rs⟩ <;>
    rcases hc : pts.map Prod.snd with _ | ⟨c0, cs⟩ <;> rw [hr, hc] at hp <;>
    try cases hp
  have hp2 := (List.mem_filter.mp hp).1
  rcases List.mem_flatMap.mp hp2 with ⟨r, hrr, hmem⟩
  rcases List.mem_map.mp hmem with ⟨c, hcc, rfl⟩
  exact ⟨List.mem_range.mp hrr, List.mem_range.mp hcc⟩

/-- C7 (amended): reconstructing one annotation in a target frame never
raises on out-of-range contours — they are dropped — and the no-data result
occurs exactly when the annotation has zero contours, or all of its contours
map outside the target slice range, or the surviving contours have no
points, or their row (resp. col) coordinates lie so far outside the target
extent that the clamped bounding box has negative extent (the reconstruction
error path, where np.zeros raises and the caught exception yields None). -/
theorem empty_result_conditions (fill : Fill) (hf : FillOK fill) (ann : AnnRec)
    (o s : Q3) (ct : ℕ × ℕ × ℕ) :
    aligned_mask_of_ann fill ann o s ct = none ↔
      (ann.contours = [] ∨ valid_contours ann o.1 s.1 ct.1 = [] ∨
       ann_pts_y ann o.1 s.1 ct.1 = [] ∨
       clamped_neg (ann_pts_y ann o.1 s.1 ct.1) ct.2.1 = true ∨
       clamped_neg (ann_pts_x ann o.1 s.1 ct.1) ct.2.2 = true) := by
  rcases hcon : ann.contours with _ | ⟨c0, crest⟩
  · simp only [aligned_mask_none_of_contours_nil fill ann o s ct hcon, true_iff]
    exact Or.inl trivial
  · rcases hvc : valid_contours ann o.1 s.1 ct.1 with _ | ⟨v, vs⟩
    · simp only [aligned_mask_none_of_frame_none fill ann o s ct
        (aligned_frame_none_of_valid_nil ann o s ct hvc), true_iff]
      exact Or.inr (Or.inl trivial)
    · rcases hy : ann_pts_y ann o.1 s.1 ct.1 with _ | ⟨y0, yr⟩
      · simp only [aligned_mask_none_of_frame_none fill ann o s ct
          (aligned_frame_none_of_pts_nil ann o s ct hy), true_iff]
        exact Or.inr (Or.inr (Or.inl trivial))
      · rcases hx : ann_pts_x ann o.1 s.1 ct.1 with _ | ⟨x0, xr⟩
        · exact absurd ((pts_y_nil_iff_x_nil ann o.1 s.1 ct.1).mpr hx) (by rw [hy]; simp)
        · have hfr := aligned_frame_eq_some ann o s ct v vs y0 yr x0 xr hvc hy hx
          have hred : aligned_mask_of_ann fill ann o s ct
              = if min ((ct.2.1 : ℤ)) (maxL y0 yr + 1) - max 0 (minL y0 yr) < 0 ∨
                   min ((ct.2.2 : ℤ)) (maxL x0 xr + 1) - max 0 (minL x0 xr) < 0 then none
                else some
                  ({ shape := ((maxL v.2 (vs.map Prod.snd) - minL v.2 (vs.map Prod.snd)
                        + 1).toNat,
                      (min ((ct.2.1 : ℤ)) (maxL y0 yr + 1) - max 0 (minL y0 yr)).toNat,
                      (min ((ct.2.2 : ℤ)) (maxL x0 xr + 1) - max 0 (minL x0 xr)).toNat),
                     mem := ann_mask_mem fill
                       ⟨minL v.2 (vs.map Prod.snd), maxL v.2 (vs.map Prod.snd),
                        max 0 (minL y0 yr), min ((ct.2.1 : ℤ)) (maxL y0 yr + 1),
                        max 0 (minL x0 xr), min ((ct.2.2 : ℤ)) (maxL x0 xr + 1)⟩
                       (valid_contours ann o.1 s.1 ct.1) },
                   ⟨⟨minL v.2 (vs.map Prod.snd), maxL v.2 (vs.map Prod.snd) + 1⟩,
                    ⟨max 0 (minL y0 yr), min ((ct.2.1 : ℤ)) (maxL y0 yr + 1)⟩,
                    ⟨max 0 (minL x0 xr), min ((ct.2.2 : ℤ)) (maxL x0 xr + 1)⟩⟩) := by
            unfold aligned_mask_of_ann
            rw [hcon, hfr]
          rw [hred]
          simp only [clamped_neg, decide_eq_true_eq]
          constructor
          · intro hnone
            split at hnone
            · rename_i hneg
              rcases hneg with hny | hnx
              · exact Or.inr (Or.inr (Or.inr (Or.inl hny)))
              · exact Or.inr (Or.inr (Or.inr (Or.inr hnx)))
            · cases hnone
          · intro hdis
            rcases hdis with h1 | h2 | h3 | h4 | h5
            · cases h1
            · cases h2
            · cases h3
            · rw [if_pos (Or.inl h4)]
            · rw [if_pos (Or.inr h5)]

theorem empty_result_conditions_witness :
    FillOK boxFill ∧ aligned_mask_of_ann boxFill ⟨[]⟩ cexO cexS cexCT = none :=
  ⟨boxFill_ok,
   (empty_result_conditions boxFill boxFill_ok ⟨[]⟩ cexO cexS cexCT).mpr (Or.inl rfl)⟩

/-- An annotation with one contour whose z lies inside the CT slice range
but whose row coordinates (600-605) lie entirely beyond the 2-pixel row
extent of the target volume. -/
def cexAnnOut : AnnRec := ⟨[⟨1, [(600, 0), (600, 1), (605, 1)]⟩]⟩

/-- C7 (counterexample): this annotation has one contour and that contour
survives the z filter (nothing is dropped), yet reconstruction reports the
no-data result — because the clamped row range has negative extent, np.zeros
raises and the exception handler returns None.  The claimed equivalence
"empty result iff zero contours or all contours dropped" is false here. -/
theorem empty_result_cex :
    aligned_mask_of_ann boxFill cexAnnOut cexO cexS cexCT = none ∧
    cexAnnOut.contours.length = 1 ∧
    (valid_contours cexAnnOut cexO.1 cexS.1 cexCT.1).length = 1 := by
  refine ⟨?_, ?_, ?_⟩ <;> with_unfolding_all rfl

lemma aligned_frame_zrange (ann : AnnRec) (o s : Q3) (ct : ℕ × ℕ × ℕ) (fr : Frame)
    (h : aligned_frame ann o s ct = some fr) : fr.zmin ≤ fr.zmax := by
  unfold aligned_frame at h
  split at h
  · cases h
  · split at h
    · rw [Option.some.injEq] at h
      rw [← h]
      exact minL_le_maxL _ _
    · cases h

lemma cluster_frame_zrange (cluster : List AnnRec) (o s : Q3) (ct : ℕ × ℕ × ℕ)
    (fr : Frame) (h : cluster_frame cluster o s ct = some fr) : fr.zmin ≤ fr.zmax := by
  unfold cluster_frame at h
  split at h
  · cases h
  · split at h
    · rw [Option.some.injEq] at h
      rw [← h]
      exact minL_le_maxL _ _
    · cases h

lemma aligned_some_elim (fill : Fill) (ann : AnnRec) (o s : Q3) (ct : ℕ × ℕ × ℕ)
    (m : Mask3) (bb : BBox3)
    (h : aligned_mask_of_ann fill ann o s ct = some (m, bb)) :
    ∃ fr, aligned_frame ann o s ct = some fr ∧
      ¬(fr.ymax - fr.ymin < 0 ∨ fr.xmax - fr.xmin < 0) ∧
      m = { shape := ((fr.zmax - fr.zmin + 1).toNat, (fr.ymax - fr.ymin).toNat,
                      (fr.xmax - fr.xmin).toNat),
            mem := ann_mask_mem fill fr (valid_contours ann o.1 s.1 ct.1) } ∧
      bb = ⟨⟨fr.zmin, fr.zmax + 1⟩, ⟨fr.ymin, fr.ymax⟩, ⟨fr.xmin, fr.xmax⟩⟩ := by
  unfold aligned_mask_of_ann at h
  split at h
  · cases h
  · rcases hfr : aligned_frame ann o s ct with _ | fr
    · rw [hfr] at h
      cases h
    · rw [hfr] at h
      refine ⟨fr, rfl, ?_⟩
      split at h
      · rename_i heq
        cases heq
      · rename_i fr2 heq
        injection heq with he
        subst he
        split at h
        · cases h
        · rename_i hguard
          rw [Option.some.injEq, Prod.mk.injEq] at h
          exact ⟨hguard, h.1.symm, h.2.symm⟩

lemma fuse_some_elim (pairs : List (Mask3 × BBox3)) (t : ℚ) (m : Mask3) (bb : BBox3)
    (h : consensus_fuse pairs t = some (m, bb)) :
    pairs ≠ [] ∧
    ¬(fusedHi BBox3.z pairs - fusedLo BBox3.z pairs < 0 ∨
      fusedHi BBox3.y pairs - fusedLo BBox3.y pairs < 0 ∨
      fusedHi BBox3.x pairs - fusedLo BBox3.x pairs < 0) ∧
    pairs.all (fits pairs) = true ∧
    m = { shape := ((fusedHi BBox3.z pairs - fusedLo BBox3.z pairs).toNat,
                    (fusedHi BBox3.y pairs - fusedLo BBox3.y pairs).toNat,
                    (fusedHi BBox3.x pairs - fusedLo BBox3.x pairs).toNat),
          mem := fuse_vote_mem pairs t } ∧
    bb = ⟨⟨fusedLo BBox3.z pairs, fusedHi BBox3.z pairs⟩,
          ⟨fusedLo BBox3.y pairs, fusedHi BBox3.y pairs⟩,
          ⟨fusedLo BBox3.x pairs, fusedHi BBox3.x pairs⟩⟩ := by
  unfold consensus_fuse at h
  split at h
  · cases h
  · split at h
    · cases h
    · rename_i hguard
      split at h
      · rename_i hall
        rw [Option.some.injEq, Prod.mk.injEq] at h
        exact ⟨by simp, hguard, hall, h.1.symm, h.2.symm⟩
      · cases h

/-- C8: every successful (mask, bbox) pair returned by the three
mask-reconstruction operations satisfies mask.shape = bbox extents exactly,
on each of the three axes. -/
theorem mask_shape_matches_bbox :
    (∀ (fill : Fill) (ann : AnnRec) (o s : Q3) (ct : ℕ × ℕ × ℕ) (m : Mask3)
        (bb : BBox3), aligned_mask_of_ann fill ann o s ct = some (m, bb) →
        shape_matches m bb) ∧
    (∀ (fill : Fill) (cluster : List AnnRec) (o s : Q3) (ct : ℕ × ℕ × ℕ) (t : ℚ)
        (m : Mask3) (bb : BBox3),
        aligned_cluster_consensus fill cluster o s ct t = some (m, bb) →
        shape_matches m bb) ∧
    (∀ (pairs : List (Mask3 × BBox3)) (t : ℚ) (m : Mask3) (bb : BBox3),
        consensus_fuse pairs t = some (m, bb) → shape_matches m bb) := by
  refine ⟨?_, ?_, ?_⟩
  · intro fill ann o s ct m bb h
    rcases aligned_some_elim fill ann o s ct m bb h with ⟨fr, hfr, hg, hm, hbb⟩
    have hz : fr.zmin ≤ fr.zmax := aligned_frame_zrange ann o s ct fr hfr
    subst hm
    subst hbb
    simp only [shape_matches]
    refine ⟨?_, ?_, ?_⟩ <;> dsimp only <;> omega
  · intro fill cluster o s ct t m bb h
    rcases acc_some_elim fill cluster o s ct t m bb h with ⟨fr, hfr, hg, hm, hbb⟩
    have hz : fr.zmin ≤ fr.zmax := cluster_frame_zrange cluster o s ct fr hfr
    subst hm
    subst hbb
    simp only [shape_matches]
    refine ⟨?_, ?_, ?_⟩ <;> dsimp only <;> omega
  · intro pairs t m bb h
    rcases fuse_some_elim pairs t m bb h with ⟨_, hg, _, hm, hbb⟩
    subst hm
    subst hbb
    simp only [shape_matches]
    refine ⟨?_, ?_, ?_⟩ <;> dsimp only <;> omega

/-- The per-annotation mask of the single-annotation example cluster. -/
def cexAMask : Mask3 :=
  { shape := (1, 2, 2),
    mem := ann_mask_mem boxFill cexFr (valid_contours cexAnnA cexO.1 cexS.1 cexCT.1) }

theorem mask_shape_matches_bbox_witness : shape_matches cexAMask cexBB :=
  mask_shape_matches_bbox.1 boxFill cexAnnA cexO cexS cexCT cexAMask cexBB
    (by with_unfolding_all rfl)

lemma cluster_frame_none_of_data_nil (cluster : List AnnRec) (o s : Q3)
    (ct : ℕ × ℕ × ℕ) (h : contour_data cluster o.1 s.1 ct.1 = []) :
    cluster_frame cluster o s ct = none := by
  unfold cluster_frame
  rw [h]

lemma acc_none_of_data_nil (fill : Fill) (cluster : List AnnRec) (o s : Q3)
    (ct : ℕ × ℕ × ℕ) (t : ℚ) (h : contour_data cluster o.1 s.1 ct.1 = []) :
    aligned_cluster_consensus fill cluster o s ct t = none := by
  unfold aligned_cluster_consensus
  rw [cluster_frame_none_of_data_nil cluster o s ct h]

/-- C10: the normalization division of the cluster-consensus operations is
never a division by zero: an empty cluster is rejected up front by
get_aligned_mask_for_cluster, a cluster none of whose contours maps into the
CT slice range yields the no-data result before the division is reached, and
whenever a consensus result is produced the divisor (the cluster length) is a
positive integer. -/
theorem cluster_divisor_positive :
    (∀ (fill : Fill) (o s : Q3) (ct : ℕ × ℕ × ℕ) (t : ℚ),
        get_aligned_mask_for_cluster fill [] o s ct t = none) ∧
    (∀ (fill : Fill) (cluster : List AnnRec) (o s : Q3) (ct : ℕ × ℕ × ℕ) (t : ℚ),
        contour_data cluster o.1 s.1 ct.1 = [] →
        aligned_cluster_consensus fill cluster o s ct t = none) ∧
    (∀ (fill : Fill) (cluster : List AnnRec) (o s : Q3) (ct : ℕ × ℕ × ℕ) (t : ℚ),
        (aligned_cluster_consensus fill cluster o s ct t).isSome = true →
        0 < cluster.length) := by
  refine ⟨?_, ?_, ?_⟩
  · intro fill o s ct t
    rfl
  · intro fill cluster o s ct t h
    exact acc_none_of_data_nil fill cluster o s ct t h
  · intro fill cluster o s ct t hs
    rcases cluster with _ | ⟨a, l⟩
    · rw [acc_none_of_data_nil fill [] o s ct t rfl] at hs
      simp at hs
    · simp

theorem cluster_divisor_positive_witness :
    get_aligned_mask_for_cluster boxFill [] cexO cexS cexCT 1 = none ∧
    contour_data [cexAnnB] cexO.1 cexS.1 cexCT.1 = [] ∧
    aligned_cluster_consensus boxFill [cexAnnB] cexO cexS cexCT 1 = none ∧
    0 < cexCluster.length := by
  have h2 : contour_data [cexAnnB] cexO.1 cexS.1 cexCT.1 = [] := by
    with_unfolding_all rfl
  have hs : (aligned_cluster_consensus boxFill cexCluster cexO cexS cexCT 1).isSome
      = true := by
    with_unfolding_all decide
  exact ⟨cluster_divisor_positive.1 boxFill cexO cexS cexCT 1, h2,
    cluster_divisor_positive.2.1 boxFill [cexAnnB] cexO cexS cexCT 1 h2,
    cluster_divisor_positive.2.2 boxFill cexCluster cexO cexS cexCT 1 hs⟩

lemma fusedLo_le (sel : BBox3 → Box1) (pairs : List (Mask3 × BBox3))
    (p : Mask3 × BBox3) (hp : p ∈ pairs) :
    fusedLo sel pairs ≤ (sel p.2).start := by
  rcases pairs with _ | ⟨q, qs⟩
  · cases hp
  · rcases List.mem_cons.mp hp with rfl | hmem
    · exact minL_le_init _ _
    · exact minL_le_mem _ _ _ (List.mem_map_of_mem _ hmem)

lemma le_fusedHi (sel : BBox3 → Box1) (pairs : List (Mask3 × BBox3))
    (p : Mask3 × BBox3) (hp : p ∈ pairs) :
    (sel p.2).stop ≤ fusedHi sel pairs := by
  rcases pairs with _ | ⟨q, qs⟩
  · cases hp
  · rcases List.mem_cons.mp hp with rfl | hmem
    · exact init_le_maxL _ _
    · exact mem_le_maxL _ _ _ (List.mem_map_of_mem _ hmem)

lemma offsets_bounds (pairs : List (Mask3 × BBox3)) (p : Mask3 × BBox3)
    (hp : p ∈ pairs) (hsh : shape_matches p.1 p.2) :
    (0 ≤ (offsets_of pairs p).1 ∧
      (offsets_of pairs p).1 + (p.1.shape.1 : ℤ)
        ≤ fusedHi BBox3.z pairs - fusedLo BBox3.z pairs) ∧
    (0 ≤ (offsets_of pairs p).2.1 ∧
      (offsets_of pairs p).2.1 + (p.1.shape.2.1 : ℤ)
        ≤ fusedHi BBox3.y pairs - fusedLo BBox3.y pairs) ∧
    (0 ≤ (offsets_of pairs p).2.2 ∧
      (offsets_of pairs p).2.2 + (p.1.shape.2.2 : ℤ)
        ≤ fusedHi BBox3.x pairs - fusedLo BBox3.x pairs) := by
  obtain ⟨h1, h2, h3⟩ := hsh
  have lz := fusedLo_le BBox3.z pairs p hp
  have hz := le_fusedHi BBox3.z pairs p hp
  have ly := fusedLo_le BBox3.y pairs p hp
  have hy := le_fusedHi BBox3.y pairs p hp
  have lx := fusedLo_le BBox3.x pairs p hp
  have hx := le_fusedHi BBox3.x pairs p hp
  unfold offsets_of
  dsimp only
  refine ⟨⟨?_, ?_⟩, ⟨?_, ?_⟩, ⟨?_, ?_⟩⟩ <;> omega

/-- C6: for a non-empty list of (mask, bbox) pairs in one common frame whose
masks' shapes equal their bbox extents, every per-input offset into the fused
frame (input start minus fused minimum start) is non-negative, and the region
written for each input — its offset plus its mask's shape — stays within the
fused shape on every axis, so no write is out of bounds. -/
theorem fusion_placement_in_bounds (pairs : List (Mask3 × BBox3)) (hne : pairs ≠ [])
    (hsh : ∀ p ∈ pairs, shape_matches p.1 p.2) :
    ∀ p ∈ pairs,
      (0 ≤ (offsets_of pairs p).1 ∧
        (offsets_of pairs p).1 + (p.1.shape.1 : ℤ)
          ≤ fusedHi BBox3.z pairs - fusedLo BBox3.z pairs) ∧
      (0 ≤ (offsets_of pairs p).2.1 ∧
        (offsets_of pairs p).2.1 + (p.1.shape.2.1 : ℤ)
          ≤ fusedHi BBox3.y pairs - fusedLo BBox3.y pairs) ∧
      (0 ≤ (offsets_of pairs p).2.2 ∧
        (offsets_of pairs p).2.2 + (p.1.shape.2.2 : ℤ)
          ≤ fusedHi BBox3.x pairs - fusedLo BBox3.x pairs) := by
  intro p hp
  exact offsets_bounds pairs p hp (hsh p hp)

/-- A fully set 1 x 2 x 2 mask placed at rows 0-1. -/
def wA : Mask3 × BBox3 :=
  ({ shape := (1, 2, 2), mem := fun _ _ _ => true }, ⟨⟨0, 1⟩, ⟨0, 2⟩, ⟨0, 2⟩⟩)

/-- A fully set 1 x 2 x 2 mask placed at rows 1-2: it overlaps wA on row 1
and differs from it on rows 0 and 2. -/
def wB : Mask3 × BBox3 :=
  ({ shape := (1, 2, 2), mem := fun _ _ _ => true }, ⟨⟨0, 1⟩, ⟨1, 3⟩, ⟨0, 2⟩⟩)

theorem fusion_placement_witness :
    ([wA, wB] : List (Mask3 × BBox3)) ≠ [] ∧
    (0 ≤ (offsets_of [wA, wB] wB).2.1 ∧
      (offsets_of [wA, wB] wB).2.1 + (wB.1.shape.2.1 : ℤ)
        ≤ fusedHi BBox3.y [wA, wB] - fusedLo BBox3.y [wA, wB]) := by
  have hne : ([wA, wB] : List (Mask3 × BBox3)) ≠ [] := by simp
  have hsh : ∀ p ∈ ([wA, wB] : List (Mask3 × BBox3)), shape_matches p.1 p.2 := by
    intro p hp
    rcases List.mem_cons.mp hp with rfl | hp2
    · exact ⟨by decide, by decide, by decide⟩
    · rcases List.mem_cons.mp hp2 with rfl | h3
      · exact ⟨by decide, by decide, by decide⟩
      · cases h3
  exact ⟨hne, (fusion_placement_in_bounds [wA, wB] hne hsh wB (by simp)).2.1⟩

lemma consensus_fuse_eq_some (pairs : List (Mask3 × BBox3)) (hne : pairs ≠ [])
    (hsh : ∀ p ∈ pairs, shape_matches p.1 p.2) (t : ℚ) :
    consensus_fuse pairs t = some
      ({ shape := ((fusedHi BBox3.z pairs - fusedLo BBox3.z pairs).toNat,
                   (fusedHi BBox3.y pairs - fusedLo BBox3.y pairs).toNat,
                   (fusedHi BBox3.x pairs - fusedLo BBox3.x pairs).toNat),
         mem := fuse_vote_mem pairs t },
       ⟨⟨fusedLo BBox3.z pairs, fusedHi BBox3.z pairs⟩,
        ⟨fusedLo BBox3.y pairs, fusedHi BBox3.y pairs⟩,
        ⟨fusedLo BBox3.x pairs, fusedHi BBox3.x pairs⟩⟩) := by
  rcases pairs with _ | ⟨p, ps⟩
  · cases hne rfl
  · have hb := offsets_bounds (p :: ps) p (by simp) (hsh p (by simp))
    have hg : ¬(fusedHi BBox3.z (p :: ps) - fusedLo BBox3.z (p :: ps) < 0 ∨
        fusedHi BBox3.y (p :: ps) - fusedLo BBox3.y (p :: ps) < 0 ∨
        fusedHi BBox3.x (p :: ps) - fusedLo BBox3.x (p :: ps) < 0) := by
      push_neg
      refine ⟨?_, ?_, ?_⟩ <;> omega
    have hall : (p :: ps).all (fits (p :: ps)) = true := by
      rw [List.all_eq_true]
      intro q hq
      have hbq := offsets_bounds (p :: ps) q hq (hsh q hq)
      unfold fits
      simp only [Bool.and_eq_true, decide_eq_true_eq]
      exact ⟨⟨hbq.1.2, hbq.2.1.2⟩, hbq.2.2.2⟩
    unfold consensus_fuse
    rw [if_neg hg, if_pos hall]

lemma covers_loc_eq_global (pairs : List (Mask3 × BBox3)) (p : Mask3 × BBox3)
    (hsh : shape_matches p.1 p.2) (zl yl xl : ℕ) :
    covers_loc pairs p zl yl xl
      = covers_global p (fusedLo BBox3.z pairs + zl) (fusedLo BBox3.y pairs + yl)
          (fusedLo BBox3.x pairs + xl) := by
  obtain ⟨h1, h2, h3⟩ := hsh
  unfold covers_loc covers_global offsets_of
  dsimp only
  have e1 : (((zl : ℤ)) - (p.2.z.start - fusedLo BBox3.z pairs)).toNat
      = ((fusedLo BBox3.z pairs + (zl : ℤ)) - p.2.z.start).toNat := by omega
  have e2 : (((yl : ℤ)) - (p.2.y.start - fusedLo BBox3.y pairs)).toNat
      = ((fusedLo BBox3.y pairs + (yl : ℤ)) - p.2.y.start).toNat := by omega
  have e3 : (((xl : ℤ)) - (p.2.x.start - fusedLo BBox3.x pairs)).toNat
      = ((fusedLo BBox3.x pairs + (xl : ℤ)) - p.2.x.start).toNat := by omega
  have d1 : decide (p.2.z.start - fusedLo BBox3.z pairs ≤ (zl : ℤ))
      = decide (p.2.z.start ≤ fusedLo BBox3.z pairs + (zl : ℤ)) :=
    decide_eq_decide.mpr (by omega)
  have d2 : decide ((zl : ℤ) < p.2.z.start - fusedLo BBox3.z pairs + (p.1.shape.1 : ℤ))
      = decide (fusedLo BBox3.z pairs + (zl : ℤ) < p.2.z.stop) :=
    decide_eq_decide.mpr (by omega)
  have d3 : decide (p.2.y.start - fusedLo BBox3.y pairs ≤ (yl : ℤ))
      = decide (p.2.y.start ≤ fusedLo BBox3.y pairs + (yl : ℤ)) :=
    decide_eq_decide.mpr (by omega)
  have d4 : decide ((yl : ℤ) < p.2.y.start - fusedLo BBox3.y pairs + (p.1.shape.2.1 : ℤ))
      = decide (fusedLo BBox3.y pairs + (yl : ℤ) < p.2.y.stop) :=
    decide_eq_decide.mpr (by omega)
  have d5 : decide (p.2.x.start - fusedLo BBox3.x pairs ≤ (xl : ℤ))
      = decide (p.2.x.start ≤ fusedLo BBox3.x pairs + (xl : ℤ)) :=
    decide_eq_decide.mpr (by omega)
  have d6 : decide ((xl : ℤ) < p.2.x.start - fusedLo BBox3.x pairs + (p.1.shape.2.2 : ℤ))
      = decide (fusedLo BBox3.x pairs + (xl : ℤ) < p.2.x.stop) :=
    decide_eq_decide.mpr (by omega)
  rw [e1, e2, e3, d1, d2, d3, d4, d5, d6]

lemma vote_fuse_pair (A B : Mask3 × BBox3) (zl yl xl : ℕ) :
    vote_fuse_at [A, B] zl yl xl
      = (if covers_loc [A, B] A zl yl xl then (1 : ℚ) else 0)
        + (if covers_loc [A, B] B zl yl xl then (1 : ℚ) else 0) := by
  unfold vote_fuse_at
  simp [List.map_cons, List.sum_cons]

/-- C5: for two placed annotation masks with shape matching their boxes,
partially overlapping (non-empty overlap and non-empty symmetric
difference), in one common frame, the fused consensus succeeds, and at
threshold 1.0 its mask is exactly the voxel-wise intersection of the two
inputs, while at any threshold strictly between 0 and 1/2 it is exactly
their union. -/
theorem threshold_boundary_consensus (A B : Mask3 × BBox3)
    (hA : shape_matches A.1 A.2) (hB : shape_matches B.1 B.2)
    (hover : ∃ z y x : ℤ, covers_global A z y x = true ∧ covers_global B z y x = true)
    (hsym : ∃ z y x : ℤ, covers_global A z y x ≠ covers_global B z y x)
    (t : ℚ) (ht0 : 0 < t) (ht2 : t < 1 / 2) (zl yl xl : ℕ) :
    (consensus_fuse [A, B] 1).isSome = true ∧
    (consensus_fuse [A, B] t).isSome = true ∧
    fuse_mem_at [A, B] 1 zl yl xl
      = (covers_global A (fusedLo BBox3.z [A, B] + zl) (fusedLo BBox3.y [A, B] + yl)
           (fusedLo BBox3.x [A, B] + xl)
         && covers_global B (fusedLo BBox3.z [A, B] + zl) (fusedLo BBox3.y [A, B] + yl)
           (fusedLo BBox3.x [A, B] + xl)) ∧
    fuse_mem_at [A, B] t zl yl xl
      = (covers_global A (fusedLo BBox3.z [A, B] + zl) (fusedLo BBox3.y [A, B] + yl)
           (fusedLo BBox3.x [A, B] + xl)
         || covers_global B (fusedLo BBox3.z [A, B] + zl) (fusedLo BBox3.y [A, B] + yl)
           (fusedLo BBox3.x [A, B] + xl)) := by
  have hsh : ∀ p ∈ ([A, B] : List (Mask3 × BBox3)), shape_matches p.1 p.2 := by
    intro p hp
    rcases List.mem_cons.mp hp with rfl | hp2
    · exact hA
    · rcases List.mem_cons.mp hp2 with rfl | h3
      · exact hB
      · cases h3
  have hfu1 := consensus_fuse_eq_some [A, B] (by simp) hsh 1
  have hfut := consensus_fuse_eq_some [A, B] (by simp) hsh t
  have hmem : ∀ (u : ℚ), fuse_mem_at [A, B] u zl yl xl = fuse_vote_mem [A, B] u zl yl xl := by
    intro u
    unfold fuse_mem_at
    rw [consensus_fuse_eq_some [A, B] (by simp) hsh u]
  refine ⟨by rw [hfu1]; rfl, by rw [hfut]; rfl, ?_, ?_⟩
  · rw [hmem 1]
    unfold fuse_vote_mem
    rw [vote_fuse_pair, covers_loc_eq_global [A, B] A hA zl yl xl,
      covers_loc_eq_global [A, B] B hB zl yl xl]
    cases hA2 : covers_global A (fusedLo BBox3.z [A, B] + zl) (fusedLo BBox3.y [A, B] + yl)
        (fusedLo BBox3.x [A, B] + xl) <;>
      cases hB2 : covers_global B (fusedLo BBox3.z [A, B] + zl) (fusedLo BBox3.y [A, B] + yl)
        (fusedLo BBox3.x [A, B] + xl) <;>
      simp only [if_true, if_false, Bool.true_and, Bool.false_and, Bool.and_true,
        Bool.and_false, Bool.and_self, decide_eq_true_eq, decide_eq_false_iff_not,
        List.length_cons, List.length_nil] <;> norm_num
  · rw [hmem t]
    unfold fuse_vote_mem
    rw [vote_fuse_pair, covers_loc_eq_global [A, B] A hA zl yl xl,
      covers_loc_eq_global [A, B] B hB zl yl xl]
    cases hA2 : covers_global A (fusedLo BBox3.z [A, B] + zl) (fusedLo BBox3.y [A, B] + yl)
        (fusedLo BBox3.x [A, B] + xl) <;>
      cases hB2 : covers_global B (fusedLo BBox3.z [A, B] + zl) (fusedLo BBox3.y [A, B] + yl)
        (fusedLo BBox3.x [A, B] + xl) <;>
      simp only [if_true, if_false, Bool.true_or, Bool.false_or, Bool.or_true,
        Bool.or_false, Bool.or_self, decide_eq_true_eq, decide_eq_false_iff_not,
        List.length_cons, List.length_nil] <;> norm_num
    all_goals linarith

theorem threshold_boundary_consensus_witness :
    shape_matches wA.1 wA.2 ∧ shape_matches wB.1 wB.2 ∧
    (0 : ℚ) < 1 / 4 ∧ (1 / 4 : ℚ) < 1 / 2 ∧
    (consensus_fuse [wA, wB] 1).isSome = true ∧
    (consensus_fuse [wA, wB] (1 / 4)).isSome = true ∧
    fuse_mem_at [wA, wB] 1 0 0 0
      = (covers_global wA (fusedLo BBox3.z [wA, wB] + 0) (fusedLo BBox3.y [wA, wB] + 0)
           (fusedLo BBox3.x [wA, wB] + 0)
         && covers_global wB (fusedLo BBox3.z [wA, wB] + 0) (fusedLo BBox3.y [wA, wB] + 0)
           (fusedLo BBox3.x [wA, wB] + 0)) ∧
    fuse_mem_at [wA, wB] (1 / 4) 0 0 0
      = (covers_global wA (fusedLo BBox3.z [wA, wB] + 0) (fusedLo BBox3.y [wA, wB] + 0)
           (fusedLo BBox3.x [wA, wB] + 0)
         || covers_global wB (fusedLo BBox3.z [wA, wB] + 0) (fusedLo BBox3.y [wA, wB] + 0)
           (fusedLo BBox3.x [wA, wB] + 0)) := by
  have hA : shape_matches wA.1 wA.2 := ⟨by decide, by decide, by decide⟩
  have hB : shape_matches wB.1 wB.2 := ⟨by decide, by decide, by decide⟩
  have hover : ∃ z y x : ℤ, covers_global wA z y x = true ∧ covers_global wB z y x = true :=
    ⟨0, 1, 0, by decide, by decide⟩
  have hsym : ∃ z y x : ℤ, covers_global wA z y x ≠ covers_global wB z y x :=
    ⟨0, 0, 0, by decide⟩
  have h := threshold_boundary_consensus wA wB hA hB hover hsym (1 / 4) (by norm_num)
    (by norm_num) 0 0 0
  exact ⟨hA, hB, by norm_num, by norm_num, h.1, h.2.1, h.2.2.1, h.2.2.2⟩

end LidcLuna
